import Mathlib

/-!
# Verification of the news post-processing pipeline of `news_scraper.py`

This file gives a shallow embedding, in Lean 4, of the pure post-processing
core of `news_scraper.py` from the `ms-ai-demo` repository: Python string
helpers, the date parser `_parse_dt_utc`, the calendar windower
`_kst_calendar_window`, the result filter/sorter of `search_news`, the
deduplicator `_dedupe`, the multi-round query planner of `search_news_multi`,
and the JSON-array extractor `_extract_json_array`.

Python strings are modelled as Lean `String`/`List Char` (the inputs of
interest are plain text); Python `datetime` instants are modelled as `Int`
microseconds since the Unix epoch; Python stdlib calls (`str.strip`,
`datetime.fromisoformat`, `calendar.monthrange`, `urllib.parse`, `json.loads`)
are modelled by explicit Lean functions following the stdlib semantics on the
relevant inputs.  Theorems about each documented claim follow the definitions.
-/

/-! ## Python string primitives (on `List Char`) -/

/-- ASCII whitespace, as recognised by Python's `str.strip()` / `\s`
(the inputs of interest contain no non-ASCII whitespace). -/
def pyIsWs (c : Char) : Bool :=
  c = ' ' ∨ c = '\t' ∨ c = '\n' ∨ c = '\x0d' ∨ c = '\x0b' ∨ c = '\x0c'

/-- Drop elements satisfying `p` from both ends (Python `str.strip`-style). -/
def stripEnds (p : Char → Bool) (cs : List Char) : List Char :=
  ((cs.dropWhile p).reverse.dropWhile p).reverse

/-- Python `str.strip()` (whitespace from both ends). -/
def pyStrip (s : String) : String := ⟨stripEnds pyIsWs s.data⟩

/-- Python `str.strip(chars)` for a single strip character. -/
def pyStripChar (c : Char) (s : String) : String :=
  ⟨stripEnds (fun x => x = c) s.data⟩

/-- Python `str.lower()` (ASCII case folding; inputs of interest are ASCII
in the cased positions). -/
def pyLower (s : String) : String := ⟨s.data.map Char.toLower⟩

/-- Index of the first occurrence of `c`, Python `str.find` (as `Option`). -/
def pyFind (c : Char) (cs : List Char) : Option Nat :=
  cs.findIdx? (fun x => x = c)

/-- Index of the last occurrence of `c`, Python `str.rfind` (as `Option`). -/
def pyRfind (c : Char) (cs : List Char) : Option Nat :=
  match (cs.reverse.findIdx? (fun x => x = c)) with
  | none => none
  | some i => some (cs.length - 1 - i)

/-- Python slice `s[l:r]`. -/
def pySlice (cs : List Char) (l r : Nat) : List Char :=
  (cs.take r).drop l

/-- Python `needle in haystack` for strings (substring containment). -/
def containsSub (needle : List Char) : List Char → Bool
  | [] => needle.isPrefixOf []
  | c :: cs => needle.isPrefixOf (c :: cs) || containsSub needle cs

/-- The part of `cs` after the first occurrence of `c`, when `c` occurs. -/
def afterFirstAux (c : Char) : List Char → Option (List Char)
  | [] => none
  | x :: xs => if x = c then some xs else afterFirstAux c xs

/-- The part of `cs` after the first occurrence of `c`; the whole list when
`c` does not occur.  Models Python `s.split(c, 1)[-1]`. -/
def afterFirst (c : Char) (cs : List Char) : List Char :=
  (afterFirstAux c cs).getD cs

/-- One pass of Python `str.replace(pat, rep)`: fuel-driven left-to-right
non-overlapping replacement (`fuel` bounds the number of examined heads). -/
def replaceFuel (pat rep : List Char) : Nat → List Char → List Char
  | _, [] => []
  | 0, cs => cs
  | fuel + 1, c :: cs =>
      if pat.isPrefixOf (c :: cs) ∧ pat ≠ [] then
        rep ++ replaceFuel pat rep fuel ((c :: cs).drop pat.length)
      else
        c :: replaceFuel pat rep fuel cs

/-- Python `str.replace(pat, rep)` (all occurrences, left to right). -/
def pyReplace (s pat rep : String) : String :=
  ⟨replaceFuel pat.data rep.data s.data.length s.data⟩

/-! ## `_extract_json_array` (news_scraper.py lines 438–455) -/

/-- `_extract_json_array(text)`: strip the text; map `null`/`none` to `"[]"`;
peel a code fence (strip backticks, drop through the first newline); then
return the slice from the first `[` to the last `]` when the latter comes
after the former, the text itself when it already looks like an array,
and `none` otherwise. -/
def extractJsonArray (text : String) : Option String :=
  let t := pyStrip text
  if pyLower t = "null" ∨ pyLower t = "none" then some "[]"
  else
    let t := if ("```".data).isPrefixOf t.data then
               ⟨afterFirst '\n' (pyStripChar '`' t).data⟩
             else t
    match pyFind '[' t.data, pyRfind ']' t.data with
    | some l, some r =>
        if l < r then some ⟨pySlice t.data l (r + 1)⟩
        else if t = "[]" ∨ (("[".data).isPrefixOf t.data ∧ ("]".data).isSuffixOf t.data)
          then some t else none
    | _, _ =>
        if t = "[]" ∨ (("[".data).isPrefixOf t.data ∧ ("]".data).isSuffixOf t.data)
          then some t else none

/-! ## Multi-round query planner helpers (news_scraper.py lines 256–309) -/

/-- `_has_site_filter(q)`: `"site:" in q.lower()`. -/
def hasSiteFilter (q : String) : Bool :=
  containsSub ("site:".data) (pyLower q).data

/-- Greedy match of `\s*` at the head. -/
def dropWsGreedy (cs : List Char) : List Char := cs.dropWhile pyIsWs

/-- Case-insensitive literal prefix match; returns the rest on success. -/
def ciPrefix : List Char → List Char → Option (List Char)
  | [], cs => some cs
  | _ :: _, [] => none
  | p :: ps, c :: cs => if p.toLower = c.toLower then ciPrefix ps cs else none

/-- Try to match the regex `\(\s*site:[^)]+\)` (case-insensitive) at the head
of the list; on success return the remainder after the match. -/
def matchParenSite (cs : List Char) : Option (List Char) :=
  match cs with
  | '(' :: rest =>
      let rest := dropWsGreedy rest
      match ciPrefix ("site:".data) rest with
      | none => none
      | some rest2 =>
          let body := rest2.takeWhile (fun c => c ≠ ')')
          let rest3 := rest2.dropWhile (fun c => c ≠ ')')
          if body.isEmpty then none
          else match rest3 with
               | ')' :: tail => some tail
               | _ => none
  | _ => none

/-- Try to match the regex `site:\S+` (case-insensitive) at the head;
on success return the remainder after the match. -/
def matchBareSite (cs : List Char) : Option (List Char) :=
  match ciPrefix ("site:".data) cs with
  | none => none
  | some rest =>
      let body := rest.takeWhile (fun c => ¬ pyIsWs c)
      if body.isEmpty then none else some (rest.drop body.length)

/-- `re.sub` driver: scan left to right, replacing each match of `try?`
by `rep` (fuel-driven; fuel bounds the scan length). -/
def reSubFuel (tryM : List Char → Option (List Char)) (rep : List Char) :
    Nat → List Char → List Char
  | _, [] => []
  | 0, cs => cs
  | fuel + 1, c :: cs =>
      match tryM (c :: cs) with
      | some rest => rep ++ reSubFuel tryM rep fuel rest
      | none => c :: reSubFuel tryM rep fuel cs

/-- Match `\s{2,}` at the head (two or more whitespace characters). -/
def matchWs2 (cs : List Char) : Option (List Char) :=
  let ws := cs.takeWhile pyIsWs
  if 2 ≤ ws.length then some (cs.drop ws.length) else none

/-- `_remove_site_filters(q)`: drop `(site:... )` groups and bare `site:tok`
occurrences, collapse runs of whitespace, and strip. -/
def removeSiteFilters (q : String) : String :=
  if q = "" then q
  else
    let q2 := reSubFuel matchParenSite [] q.data.length q.data
    let q3 := reSubFuel matchBareSite [] q2.length q2
    let q4 := reSubFuel matchWs2 (" ".data) q3.length q3
    pyStrip ⟨q4⟩

/-- `_simplify_query(q)`: blank out literal `AND`/`OR`, collapse double
spaces once, drop double quotes, and strip. -/
def simplifyQuery (q : String) : String :=
  if q = "" then q
  else
    let q2 := pyReplace (pyReplace q "AND" " ") "OR" " "
    let q2 := pyReplace (pyReplace q2 "  " " ") "\"" ""
    pyStrip q2

/-- The candidate-variant list `rounds` built by `search_news_multi`
(lines 296–300): the original query, then the site-filter-stripped variant
when a `site:` token is present, then the simplified variant. -/
def multiRounds (q : String) : List String :=
  [q] ++ (if hasSiteFilter q then [removeSiteFilters q] else []) ++ [simplifyQuery q]

/-- The deduplicated round list `uniq_rounds` (lines 303–309): strip each
candidate, dropping empties and repeats, preserving first-seen order. -/
def uniqRounds (q : String) : List String :=
  let step := fun (acc : List String × List String) (rq : String) =>
    let rq := pyStrip rq
    if rq ≠ "" ∧ rq ∉ acc.2 then (acc.1 ++ [rq], acc.2 ++ [rq]) else acc
  ((multiRounds q).foldl step ([], [])).1

/-! ## `search_news` count clamping and prompt (lines 458–483) -/

/-- The clamp applied to `count` at the top of `search_news`
(`if count < 1: count = 1` then `if count > 50: count = 50`; the two
sequential statements collapse to this nested conditional since `1 > 50`
is false). -/
def clampCount (c : Int) : Int :=
  if c < 1 then 1 else if c > 50 then 50 else c

/-- The user prompt f-string of `search_news`, as a function of the already
clamped count (the braces of the JSON shape example are written escaped). -/
def searchNewsPromptRaw (q : String) (count : Int) (freshness market : String) : String :=
  "\n아래 조건으로 Grounding with Bing Search를 사용해 최신 뉴스를 찾아라.\n- market: "
    ++ market
    ++ "\n- freshness: " ++ freshness ++ "   # Day | Week | Month\n- count: "
    ++ toString count
    ++ "\n\n반드시 아래 '정확한' JSON 배열만 출력하라. 설명/주석/코드펜스/앞뒤 텍스트 모두 금지.\n결과가 하나도 없으면 빈 배열 [] 만 출력하라.\n[\n  \x7b\"title\":\"...\", \"snippet\":\"...\", \"source\":\"...\", \"published\":\"YYYY-MM-DDTHH:MM:SSZ\", \"url\":\"...\"\x7d\n]\n질의: " ++ q ++ "\n"

/-- The prompt actually sent by `search_news` for a given raw `count`
argument: the clamp of lines 464–467 happens before the f-string. -/
def searchNewsPrompt (q : String) (count : Int) (freshness market : String) : String :=
  searchNewsPromptRaw q (clampCount count) freshness market

/-! ## Claims C6, C2, C10 -/

/-- C6: `_extract_json_array` maps the fenced empty array to `"[]"`, the
literal `null` to `"[]"`, extracts `[1,2]` from surrounding prose, and
returns none when no bracket pair is present. -/
theorem extractJsonArray_examples :
    extractJsonArray "```json\n[]\n```" = some "[]" ∧
    extractJsonArray "null" = some "[]" ∧
    extractJsonArray "some text [1,2] more" = some "[1,2]" ∧
    extractJsonArray "no brackets here" = none := by
  refine ⟨by decide, by decide, by decide, by decide⟩

/-- C2: for a base query without a `site:` token, the candidate list built
by `search_news_multi` is exactly the original query followed by its
simplified form — two candidates, and the site-filter-removal variant is
never produced. -/
theorem multiRounds_no_site (q : String) (h : hasSiteFilter q = false) :
    multiRounds q = [q, simplifyQuery q] ∧ (multiRounds q).length = 2 := by
  have hq : multiRounds q = [q, simplifyQuery q] := by
    simp [multiRounds, h]
  exact ⟨hq, by rw [hq]; rfl⟩

/-- Witness for C2 at the concrete query `"hello world"`. -/
theorem multiRounds_no_site_witness :
    multiRounds "hello world" = ["hello world", "hello world"] ∧
    (multiRounds "hello world").length = 2 := by
  have h := multiRounds_no_site "hello world" (by decide)
  have hs : simplifyQuery "hello world" = "hello world" := by decide
  exact ⟨by rw [h.1, hs], h.2⟩

/-- C10: `search_news` clamps its `count` argument into `[1, 50]` before any
use; the only count-dependent behaviour is the user prompt, so a call with
`count < 1` behaves exactly like `count = 1` and a call with `count > 50`
exactly like `count = 50`. -/
theorem searchNewsPrompt_clamps (q freshness market : String) (count : Int) :
    (count < 1 → searchNewsPrompt q count freshness market
               = searchNewsPrompt q 1 freshness market) ∧
    (50 < count → searchNewsPrompt q count freshness market
               = searchNewsPrompt q 50 freshness market) := by
  constructor
  · intro h
    have hc : clampCount count = clampCount 1 := by
      unfold clampCount; split_ifs <;> omega
    simp only [searchNewsPrompt, hc]
  · intro h
    have hc : clampCount count = clampCount 50 := by
      unfold clampCount; split_ifs <;> omega
    simp only [searchNewsPrompt, hc]

/-- Witness for C10 at the concrete out-of-range counts 0 and 99. -/
theorem searchNewsPrompt_clamps_witness :
    searchNewsPrompt "KT" 0 "Week" "ko-KR" = searchNewsPrompt "KT" 1 "Week" "ko-KR" ∧
    searchNewsPrompt "KT" 99 "Week" "ko-KR" = searchNewsPrompt "KT" 50 "Week" "ko-KR" := by
  exact ⟨(searchNewsPrompt_clamps "KT" "Week" "ko-KR" 0).1 (by norm_num),
         (searchNewsPrompt_clamps "KT" "Week" "ko-KR" 99).2 (by norm_num)⟩

/-! ## `urllib.parse` model (used by `_dedupe`'s `_norm_url`)

The functions below model `urlparse`, `parse_qs`, `urlencode` and
`urlunparse` from the Python standard library on textual URLs (percent
escapes are decoded/encoded at the code-point level, which agrees with
CPython on ASCII data — all URL data in this repository's pipeline).
-/

/-- Python `s.split(sep, 1)`: the part before the first `sep` and,
when `sep` occurs, the part after it. -/
def splitOnce (sep : Char) : List Char → List Char × Option (List Char)
  | [] => ([], none)
  | c :: cs =>
      if c = sep then ([], some cs)
      else
        let r := splitOnce sep cs
        (c :: r.1, r.2)

/-- Python `s.split(sep)` (all fields, empty fields preserved). -/
def splitAll (sep : Char) : List Char → List (List Char)
  | [] => [[]]
  | c :: cs =>
      let r := splitAll sep cs
      if c = sep then [] :: r
      else match r with
           | [] => [[c]]
           | h :: t => (c :: h) :: t

/-- Value of a hexadecimal digit. -/
def hexDigitVal (c : Char) : Option Nat :=
  if '0' ≤ c ∧ c ≤ '9' then some (c.toNat - 48)
  else if 'a' ≤ c ∧ c ≤ 'f' then some (c.toNat - 87)
  else if 'A' ≤ c ∧ c ≤ 'F' then some (c.toNat - 55)
  else none

/-- Upper-case hexadecimal digit of a value `< 16`. -/
def hexUpper (n : Nat) : Char :=
  if n < 10 then Char.ofNat (48 + n) else Char.ofNat (55 + n)

/-- UTF-8 bytes of a character (as used by `quote_plus`). -/
def utf8Bytes (c : Char) : List Nat :=
  let n := c.toNat
  if n < 128 then [n]
  else if n < 2048 then [192 + n / 64, 128 + n % 64]
  else if n < 65536 then [224 + n / 4096, 128 + (n / 64) % 64, 128 + n % 64]
  else [240 + n / 262144, 128 + (n / 4096) % 64, 128 + (n / 64) % 64, 128 + n % 64]

/-- Characters `quote_plus` leaves unescaped (`always_safe`, with empty
`safe` as `urlencode` uses). -/
def quoteSafeChar (c : Char) : Bool :=
  ('A' ≤ c ∧ c ≤ 'Z') ∨ ('a' ≤ c ∧ c ≤ 'z') ∨ ('0' ≤ c ∧ c ≤ '9') ∨
    c = '_' ∨ c = '.' ∨ c = '-' ∨ c = '~'

/-- `urllib.parse.quote_plus`: spaces to `+`, unsafe characters
percent-encoded from their UTF-8 bytes. -/
def quotePlus (cs : List Char) : List Char :=
  (cs.map (fun c =>
    if c = ' ' then ['+']
    else if quoteSafeChar c then [c]
    else (utf8Bytes c).map (fun b => ['%', hexUpper (b / 16), hexUpper (b % 16)]) |>.flatten)).flatten

/-- `urllib.parse.unquote_plus`: `+` to space, `%XX` decoded (code-point
level; agrees with CPython on ASCII escapes). -/
def unquotePlus : List Char → List Char
  | [] => []
  | '+' :: cs => ' ' :: unquotePlus cs
  | '%' :: h1 :: h2 :: cs =>
      match hexDigitVal h1, hexDigitVal h2 with
      | some a, some b => Char.ofNat (16 * a + b) :: unquotePlus cs
      | _, _ => '%' :: unquotePlus (h1 :: h2 :: cs)
  | c :: cs => c :: unquotePlus cs

/-- `urllib.parse.parse_qsl` with default flags: split on `&`, skip empty
fields, fields without `=`, and fields with an empty value; unquote names
and values. -/
def parseQsl (qs : List Char) : List (List Char × List Char) :=
  (splitAll '&' qs).foldr (fun nv acc =>
    if nv = [] then acc
    else
      match splitOnce '=' nv with
      | (_, none) => acc
      | (n, some v) => if v = [] then acc else (unquotePlus n, unquotePlus v) :: acc) []

/-- Append `v` under key `k` in an insertion-ordered association list. -/
def insertQs (k v : List Char) :
    List (List Char × List (List Char)) → List (List Char × List (List Char))
  | [] => [(k, [v])]
  | (k', vs) :: rest =>
      if k' = k then (k', vs ++ [v]) :: rest else (k', vs) :: insertQs k v rest

/-- `urllib.parse.parse_qs`: group `parse_qsl` pairs by name, preserving
first-appearance order of names. -/
def parseQs (qs : List Char) : List (List Char × List (List Char)) :=
  (parseQsl qs).foldl (fun acc kv => insertQs kv.1 kv.2 acc) []

/-- `urllib.parse.urlencode(..., doseq=True)` over grouped pairs. -/
def urlencodeSeq (qs : List (List Char × List (List Char))) : List Char :=
  List.intercalate ['&']
    ((qs.map (fun kv => kv.2.map (fun v => quotePlus kv.1 ++ '=' :: quotePlus v))).flatten)

/-- Result of `urlparse` (a six-component `ParseResult`). -/
structure UrlParts where
  scheme : String
  netloc : String
  path : String
  params : String
  query : String
  fragment : String
deriving DecidableEq, Repr

/-- Characters allowed in a URL scheme. -/
def schemeChar (c : Char) : Bool :=
  c.isAlpha ∨ ('0' ≤ c ∧ c ≤ '9') ∨ c = '+' ∨ c = '-' ∨ c = '.'

/-- Split a leading `scheme:` when the text before the first `:` is a valid
scheme (nonempty, letter-initial, scheme characters only). -/
def splitScheme (cs : List Char) : Option (List Char × List Char) :=
  match splitOnce ':' cs with
  | (before, some after) =>
      if before ≠ [] ∧ before.head?.elim false Char.isAlpha ∧ before.all schemeChar
      then some (before.map Char.toLower, after) else none
  | _ => none

/-- Split the netloc (text after `//` up to the first `/`, `?` or `#`). -/
def netlocSplit (cs : List Char) : List Char × List Char :=
  let n := cs.takeWhile (fun c => c ≠ '/' ∧ c ≠ '?' ∧ c ≠ '#')
  (n, cs.drop n.length)

/-- `urllib.parse.urlsplit` on a textual URL: scheme, then `//netloc`, then
fragment at the first `#`, then query at the first `?`. -/
def pyUrlsplit (u : String) : UrlParts :=
  let cs := u.data
  let p1 := match splitScheme cs with
    | some sr => sr
    | none => ([], cs)
  let p2 := if ("//".data).isPrefixOf p1.2 then netlocSplit (p1.2.drop 2) else ([], p1.2)
  let p3 := match splitOnce '#' p2.2 with
    | (a, some b) => (a, b)
    | (a, none) => (a, [])
  let p4 := match splitOnce '?' p3.1 with
    | (a, some b) => (a, b)
    | (a, none) => (a, [])
  ⟨⟨p1.1⟩, ⟨p2.1⟩, ⟨p4.1⟩, "", ⟨p4.2⟩, ⟨p3.2⟩⟩

/-- Schemes for which `urlparse` splits `;params` from the path. -/
def usesParams : List String :=
  ["", "ftp", "hdl", "prospero", "http", "imap", "https", "shttp", "rtsp",
   "rtspu", "sip", "sips", "mms", "sftp", "tel"]

/-- Index of the first occurrence of `c` at or after position `start`. -/
def findFrom (c : Char) (start : Nat) (cs : List Char) : Option Nat :=
  match pyFind c (cs.drop start) with
  | none => none
  | some i => some (start + i)

/-- `_splitparams`: split the path at the first `;` of its last segment. -/
def splitParamsPath (p : List Char) : List Char × List Char :=
  let idx := if containsSub ("/".data) p then
               match pyRfind '/' p with
               | some j => findFrom ';' j p
               | none => pyFind ';' p
             else pyFind ';' p
  match idx with
  | none => (p, [])
  | some i => (p.take i, p.drop (i + 1))

/-- `urllib.parse.urlparse`: `urlsplit` plus `;params` splitting. -/
def pyUrlparse (u : String) : UrlParts :=
  let sp := pyUrlsplit u
  if sp.scheme ∈ usesParams ∧ containsSub (";".data) sp.path.data then
    let pp := splitParamsPath sp.path.data
    { sp with path := ⟨pp.1⟩, params := ⟨pp.2⟩ }
  else sp

/-- `urllib.parse.urlunparse` (via `urlunsplit`). -/
def pyUrlunparse (p : UrlParts) : String :=
  let url := p.path.data ++ (if p.params ≠ "" then ';' :: p.params.data else [])
  let url := if p.netloc ≠ "" ∨ ("//".data).isPrefixOf url then
               ("//".data) ++ p.netloc.data ++
                 (if url ≠ [] ∧ url.head? ≠ some '/' then '/' :: url else url)
             else url
  let url := if p.scheme ≠ "" then p.scheme.data ++ ':' :: url else url
  let url := if p.query ≠ "" then url ++ '?' :: p.query.data else url
  let url := if p.fragment ≠ "" then url ++ '#' :: p.fragment.data else url
  ⟨url⟩

/-! ## `_dedupe` (news_scraper.py lines 229–253) -/

/-- A parsed news item (all five fields default to the empty string). -/
structure NewsItem where
  title : String
  snippet : String
  source : String
  published : String
  url : String
deriving DecidableEq, Repr

/-- `_norm_url(u)`: parse the URL, drop query parameters whose name starts
with `utm` (case-insensitively), and reassemble.  The Python `except`
fallback (`(u or "").strip()`) is unreachable here because the modelled
`urllib.parse` functions are total. -/
def normUrl (u : String) : String :=
  let p := pyUrlparse u
  let qs := parseQs p.query.data
  let qs := qs.filter (fun kv => ¬ (("utm".data).isPrefixOf (kv.1.map Char.toLower)))
  pyUrlunparse { p with query := ⟨urlencodeSeq qs⟩ }

/-- The dedup key of `_dedupe`: the normalised URL, or — when that is the
empty string (Python `or` on a falsy value) — the lowercased stripped
title. -/
def dedupKey (it : NewsItem) : String :=
  let k := normUrl it.url
  if k ≠ "" then k else pyLower (pyStrip it.title)

/-- The `_dedupe` loop with its `seen` set (modelled as a list of keys),
parameterised by the key function to state its loop invariants once. -/
def dedupeLoop (kf : NewsItem → String) (seen : List String) : List NewsItem → List NewsItem
  | [] => []
  | it :: rest =>
      let key := kf it
      if key = "" ∨ key ∈ seen then dedupeLoop kf seen rest
      else it :: dedupeLoop kf (key :: seen) rest

/-- `_dedupe(items)`: keep the first item of each nonempty dedup key. -/
def dedupe (items : List NewsItem) : List NewsItem :=
  dedupeLoop dedupKey [] items

/-- Modelled from the spec's claim wording (for comparison only): the key
the claim describes, falling back to the title only when the raw URL is
empty — unlike the source, which falls back whenever the *normalised* URL
is empty. -/
def claimDedupKey (it : NewsItem) : String :=
  if it.url = "" then pyLower (pyStrip it.title) else normUrl it.url

/-! ## Dedup loop lemmas -/

/-- The dedup loop output is a sublist of its input (stability). -/
theorem dedupeLoop_sublist (kf : NewsItem → String) (xs : List NewsItem)
    (seen : List String) : (dedupeLoop kf seen xs).Sublist xs := by
  induction xs generalizing seen with
  | nil => simp [dedupeLoop]
  | cons it rest ih =>
      simp only [dedupeLoop]
      split
      · exact List.Sublist.cons it (ih seen)
      · exact List.Sublist.cons₂ it (ih _)

/-- Every item the dedup loop keeps has a nonempty key outside `seen`. -/
theorem dedupeLoop_mem (kf : NewsItem → String) (xs : List NewsItem)
    (seen : List String) (it : NewsItem)
    (h : it ∈ dedupeLoop kf seen xs) : kf it ∉ seen ∧ kf it ≠ "" := by
  induction xs generalizing seen with
  | nil => simp [dedupeLoop] at h
  | cons y rest ih =>
      simp only [dedupeLoop] at h
      by_cases hc : kf y = "" ∨ kf y ∈ seen
      · rw [if_pos hc] at h
        exact ih seen h
      · rw [if_neg hc] at h
        push_neg at hc
        rcases List.mem_cons.mp h with rfl | h'
        · exact ⟨hc.2, hc.1⟩
        · have := ih (kf y :: seen) h'
          exact ⟨fun hm => this.1 (List.mem_cons_of_mem _ hm), this.2⟩

/-- The keys of the dedup loop output are pairwise distinct. -/
theorem dedupeLoop_keys_nodup (kf : NewsItem → String) (xs : List NewsItem)
    (seen : List String) : ((dedupeLoop kf seen xs).map kf).Nodup := by
  induction xs generalizing seen with
  | nil => simp [dedupeLoop]
  | cons y rest ih =>
      simp only [dedupeLoop]
      split
      · exact ih seen
      · simp only [List.map_cons, List.nodup_cons]
        refine ⟨fun hmem => ?_, ih _⟩
        obtain ⟨it, hit, hkey⟩ := List.mem_map.mp hmem
        have := dedupeLoop_mem kf rest _ it hit
        exact this.1 (hkey ▸ List.mem_cons_self _ _)

/-- On a list whose keys are nonempty, distinct and unseen, the dedup loop
is the identity. -/
theorem dedupeLoop_of_distinct (kf : NewsItem → String) (xs : List NewsItem)
    (seen : List String)
    (h1 : ∀ it ∈ xs, kf it ≠ "" ∧ kf it ∉ seen)
    (h2 : (xs.map kf).Nodup) : dedupeLoop kf seen xs = xs := by
  induction xs generalizing seen with
  | nil => simp [dedupeLoop]
  | cons y rest ih =>
      have hy := h1 y (List.mem_cons_self _ _)
      have h2' : ¬ kf y ∈ rest.map kf ∧ (rest.map kf).Nodup := by
        simpa [List.nodup_cons] using h2
      simp only [dedupeLoop]
      rw [if_neg (by push_neg; exact ⟨hy.1, hy.2⟩)]
      congr 1
      apply ih
      · intro it hit
        refine ⟨(h1 it (List.mem_cons_of_mem _ hit)).1, fun hmem => ?_⟩
        rcases List.mem_cons.mp hmem with heq | hmem'
        · exact h2'.1 (heq ▸ List.mem_map_of_mem kf hit)
        · exact (h1 it (List.mem_cons_of_mem _ hit)).2 hmem'
      · exact h2'.2

/-- The dedup loop only consults `seen` through membership. -/
theorem dedupeLoop_seen_congr (kf : NewsItem → String) (xs : List NewsItem)
    (seen seen' : List String)
    (h : ∀ a, a ∈ seen ↔ a ∈ seen') : dedupeLoop kf seen xs = dedupeLoop kf seen' xs := by
  induction xs generalizing seen seen' with
  | nil => rfl
  | cons y rest ih =>
      simp only [dedupeLoop]
      by_cases hc : kf y = "" ∨ kf y ∈ seen
      · have hc' : kf y = "" ∨ kf y ∈ seen' := by
          rcases hc with h1 | h1
          · exact Or.inl h1
          · exact Or.inr ((h _).mp h1)
        rw [if_pos hc, if_pos hc']
        exact ih seen seen' h
      · have hc' : ¬ (kf y = "" ∨ kf y ∈ seen') := by
          push_neg at hc ⊢
          exact ⟨hc.1, fun hm => hc.2 ((h _).mpr hm)⟩
        rw [if_neg hc, if_neg hc']
        congr 1
        exact ih _ _ (fun a => by simp [List.mem_cons, h a])

/-- Marking a key `k` as seen is the same as pre-filtering the items whose
key is `k`. -/
theorem dedupeLoop_seen_cons (kf : NewsItem → String) (xs : List NewsItem)
    (seen : List String) (k : String) :
    dedupeLoop kf (k :: seen) xs = dedupeLoop kf seen (xs.filter (fun y => kf y ≠ k)) := by
  induction xs generalizing seen with
  | nil => rfl
  | cons y rest ih =>
      by_cases hky : kf y = k
      · have hfy : (fun y => decide (kf y ≠ k)) y = false := by simp [hky]
        simp only [dedupeLoop, List.filter_cons, hfy]
        rw [if_pos (Or.inr (by rw [hky]; exact List.mem_cons_self _ _))]
        simpa using ih seen
      · have hfy : (fun y => decide (kf y ≠ k)) y = true := by simp [hky]
        simp only [dedupeLoop, List.filter_cons, hfy]
        by_cases hc : kf y = "" ∨ kf y ∈ seen
        · have hcl : kf y = "" ∨ kf y ∈ k :: seen := by
            rcases hc with h1 | h1
            · exact Or.inl h1
            · exact Or.inr (List.mem_cons_of_mem _ h1)
          simp only [if_pos hc, if_pos hcl]
          simpa using ih seen
        · have hcl : ¬ (kf y = "" ∨ kf y ∈ k :: seen) := by
            push_neg at hc ⊢
            refine ⟨hc.1, fun hm => ?_⟩
            rcases List.mem_cons.mp hm with h1 | h1
            · exact hky h1
            · exact hc.2 h1
          rw [if_neg hcl, if_neg hc]
          congr 1
          have hiff : ∀ a : String,
              a ∈ kf y :: k :: seen ↔ a ∈ k :: kf y :: seen := by
            intro a
            constructor <;> intro hm <;> simp only [List.mem_cons] at hm ⊢ <;> tauto
          have hswap : dedupeLoop kf (kf y :: k :: seen) rest
              = dedupeLoop kf (k :: kf y :: seen) rest :=
            dedupeLoop_seen_congr kf rest (kf y :: k :: seen) (k :: kf y :: seen) hiff
          rw [hswap]
          exact ih (kf y :: seen)

/-! ## Claims C7 and C8 -/

/-- C7 (amended): `_dedupe` keeps the first occurrence of each nonempty
dedup key, where the key is the normalised URL, falling back to the
lowercased stripped title whenever the *normalised* URL is empty; output
order is a stable subsequence of the input; and of the two items
`url = "http://a.com/x?utm_source=y"` and `url = "http://a.com/x"` only
the first survives. -/
theorem dedupe_first_occurrence (x : NewsItem) (xs : List NewsItem) :
    (dedupe xs).Sublist xs ∧
    (dedupKey x = "" → dedupe (x :: xs) = dedupe xs) ∧
    (dedupKey x ≠ "" →
      dedupe (x :: xs) = x :: dedupe (xs.filter (fun y => dedupKey y ≠ dedupKey x))) ∧
    dedupe [⟨"", "", "", "", "http://a.com/x?utm_source=y"⟩,
            ⟨"", "", "", "", "http://a.com/x"⟩]
      = [⟨"", "", "", "", "http://a.com/x?utm_source=y"⟩] := by
  refine ⟨dedupeLoop_sublist dedupKey xs [], fun h0 => ?_, fun hne => ?_, by decide⟩
  · show dedupeLoop dedupKey [] (x :: xs) = dedupeLoop dedupKey [] xs
    simp only [dedupeLoop]
    rw [if_pos (Or.inl h0)]
  · show dedupeLoop dedupKey [] (x :: xs)
        = x :: dedupe (xs.filter (fun y => dedupKey y ≠ dedupKey x))
    simp only [dedupeLoop]
    rw [if_neg (by push_neg; exact ⟨hne, by simp⟩)]
    congr 1
    exact dedupeLoop_seen_cons dedupKey xs [] (dedupKey x)

/-- Witness for C7 at concrete inputs: a duplicate pair collapses to its
first element, and the utm-stripped pair from the claim does too. -/
theorem dedupe_first_occurrence_witness :
    dedupe [(⟨"", "", "", "", "http://b.com/y"⟩ : NewsItem),
            ⟨"", "", "", "", "http://b.com/y"⟩]
      = [⟨"", "", "", "", "http://b.com/y"⟩] ∧
    dedupe [(⟨"", "", "", "", "http://a.com/x?utm_source=y"⟩ : NewsItem),
            ⟨"", "", "", "", "http://a.com/x"⟩]
      = [⟨"", "", "", "", "http://a.com/x?utm_source=y"⟩] := by
  have h := dedupe_first_occurrence (⟨"", "", "", "", "http://b.com/y"⟩ : NewsItem)
    [(⟨"", "", "", "", "http://b.com/y"⟩ : NewsItem)]
  refine ⟨?_, h.2.2.2⟩
  rw [h.2.2.1 (by decide)]
  decide

/-- C7 (counterexample to the claim as stated): an item whose raw URL is
nonempty but whose normalised URL is empty (`"?utm_source=y"`) survives
deduplication keyed by its title, although the claim's key — the normalised
URL, since the raw URL is nonempty — is empty and the claim says empty-key
items are dropped. -/
theorem dedupe_claim_counterexample :
    dedupe [⟨"T", "", "", "", "?utm_source=y"⟩] = [⟨"T", "", "", "", "?utm_source=y"⟩] ∧
    (⟨"T", "", "", "", "?utm_source=y"⟩ : NewsItem).url ≠ "" ∧
    claimDedupKey ⟨"T", "", "", "", "?utm_source=y"⟩ = "" := by
  refine ⟨by decide, by decide, by decide⟩

/-- C8: `_dedupe` is idempotent. -/
theorem dedupe_idempotent (xs : List NewsItem) :
    dedupe (dedupe xs) = dedupe xs := by
  apply dedupeLoop_of_distinct
  · intro it hit
    have h := dedupeLoop_mem dedupKey xs [] it hit
    exact ⟨h.2, h.1⟩
  · exact dedupeLoop_keys_nodup dedupKey xs []

/-! ## Civil-calendar and instant model

Python `datetime` instants are modelled as `Int` microseconds since the Unix
epoch (UTC).  Civil dates convert to day numbers with Hinnant's algorithms;
`/` on `Int` is Euclidean division, which coincides with floor division for
the positive constant divisors used here.
-/

/-- Microseconds per second. -/
def USEC : Int := 1000000

/-- Microseconds per day. -/
def DAYU : Int := 86400000000

/-- The fixed `KST = timezone(timedelta(hours=9))` offset, in microseconds. -/
def KOFF : Int := 32400000000

/-- Gregorian leap-year rule (as used by `calendar.isleap`). -/
def isLeapYear (y : Int) : Bool :=
  (y % 4 = 0 ∧ y % 100 ≠ 0) ∨ y % 400 = 0

/-- `calendar.monthrange(y, m)[1]`: the number of days in the month. -/
def monthrange (y m : Int) : Int :=
  if m = 2 then (if isLeapYear y then 29 else 28)
  else if m = 4 ∨ m = 6 ∨ m = 9 ∨ m = 11 then 30
  else 31

/-- Days since 1970-01-01 of a civil date (Hinnant's `days_from_civil`). -/
def daysFromCivil (y m d : Int) : Int :=
  let y2 := if m ≤ 2 then y - 1 else y
  let era := y2 / 400
  let yoe := y2 - era * 400
  let mp := if m > 2 then m - 3 else m + 9
  let doy := (153 * mp + 2) / 5 + d - 1
  let doe := yoe * 365 + yoe / 4 - yoe / 100 + doy
  era * 146097 + doe - 719468

/-- Civil date of a day number (Hinnant's `civil_from_days`). -/
def civilFromDays (z0 : Int) : Int × Int × Int :=
  let z := z0 + 719468
  let era := z / 146097
  let doe := z - era * 146097
  let yoe := (doe - doe / 1460 + doe / 36524 - doe / 146096) / 365
  let y := yoe + era * 400
  let doy := doe - (365 * yoe + yoe / 4 - yoe / 100)
  let mp := (5 * doy + 2) / 153
  let d := doy - (153 * mp + 2) / 5 + 1
  let m := if mp < 10 then mp + 3 else mp - 9
  (if m ≤ 2 then y + 1 else y, m, d)

/-- Microsecond instant of a civil datetime (no zone applied). -/
def civilMicros (y m d h mi s us : Int) : Int :=
  daysFromCivil y m d * DAYU + ((h * 3600 + mi * 60 + s) * USEC + us)

/-! ## `datetime.fromisoformat` model (strict ISO grammar
`YYYY-MM-DD[*HH[:MM[:SS[.fff[fff]]]][±HH:MM[:SS[.ffffff]]]]`) -/

/-- Decimal digit value. -/
def digitVal (c : Char) : Option Nat :=
  if '0' ≤ c ∧ c ≤ '9' then some (c.toNat - 48) else none

/-- Parse exactly two digits. -/
def parse2 : List Char → Option (Nat × List Char)
  | a :: b :: rest =>
      match digitVal a, digitVal b with
      | some x, some y => some (10 * x + y, rest)
      | _, _ => none
  | _ => none

/-- Parse exactly four digits. -/
def parse4 : List Char → Option (Nat × List Char)
  | a :: b :: c :: d :: rest =>
      match digitVal a, digitVal b, digitVal c, digitVal d with
      | some w, some x, some y, some z => some (1000 * w + 100 * x + 10 * y + z, rest)
      | _, _, _, _ => none
  | _ => none

/-- Parse the `YYYY-MM-DD` date part. -/
def parseDateIso (cs : List Char) : Option (Nat × Nat × Nat × List Char) :=
  match parse4 cs with
  | none => none
  | some (y, r1) =>
      match r1 with
      | '-' :: r2 =>
          match parse2 r2 with
          | none => none
          | some (m, r3) =>
              match r3 with
              | '-' :: r4 =>
                  match parse2 r4 with
                  | none => none
                  | some (d, r5) => some (y, m, d, r5)
              | _ => none
      | _ => none

/-- Parse a `.fff` / `.ffffff` fraction (exactly 3 or 6 digits), as
microseconds. -/
def parseFracIso : List Char → Option (Nat × List Char)
  | '.' :: rest =>
      let ds := rest.takeWhile (fun c => (digitVal c).isSome)
      let toVal : List Char → Nat := fun l => l.foldl (fun a c => 10 * a + (c.toNat - 48)) 0
      if ds.length = 3 then some (toVal ds * 1000, rest.drop 3)
      else if ds.length = 6 then some (toVal ds, rest.drop 6)
      else none
  | _ => none

/-- Parse the `HH[:MM[:SS[.fff[fff]]]]` time part, as microseconds of day
(fields unvalidated here). -/
def parseTimeIso (cs : List Char) : Option (Nat × Nat × Nat × Nat × List Char) :=
  match parse2 cs with
  | none => none
  | some (h, r1) =>
      match r1 with
      | ':' :: r2 =>
          match parse2 r2 with
          | none => none
          | some (mi, r3) =>
              match r3 with
              | ':' :: r4 =>
                  match parse2 r4 with
                  | none => none
                  | some (s, r5) =>
                      match parseFracIso r5 with
                      | some (us, r6) => some (h, mi, s, us, r6)
                      | none => some (h, mi, s, 0, r5)
              | _ => some (h, mi, 0, 0, r3)
      | _ => some (h, 0, 0, 0, r1)

/-- Parse the `±HH:MM[:SS[.ffffff]]` offset, anchored at the end of input;
returns the signed offset in microseconds. -/
def parseOffIso (cs : List Char) : Option Int :=
  match cs with
  | sign :: rest =>
      if sign = '+' ∨ sign = '-' then
        match parseTimeIso rest with
        | some (oh, om, os, ous, []) =>
            if oh ≤ 23 ∧ om ≤ 59 ∧ os ≤ 59 then
              let v : Int := ((oh * 3600 + om * 60 + os) * 1000000 + ous : Nat)
              some (if sign = '-' then -v else v)
            else none
        | _ => none
      else none
  | [] => none

/-- `datetime.fromisoformat` on the strict grammar: returns the naive civil
instant (microseconds, zone not applied) and the offset when present. -/
def fromIso (cs : List Char) : Option (Int × Option Int) :=
  match parseDateIso cs with
  | none => none
  | some (y, m, d, rest) =>
      if 1 ≤ y ∧ y ≤ 9999 ∧ 1 ≤ m ∧ m ≤ 12 ∧ 1 ≤ (d : Int) ∧ (d : Int) ≤ monthrange y m then
        match rest with
        | [] => some (civilMicros y m d 0 0 0 0, none)
        | _ :: tcs =>
            match parseTimeIso tcs with
            | none => none
            | some (h, mi, s, us, r2) =>
                if h ≤ 23 ∧ mi ≤ 59 ∧ s ≤ 59 then
                  match r2 with
                  | [] => some (civilMicros y m d h mi s us, none)
                  | _ =>
                      match parseOffIso r2 with
                      | some off => some (civilMicros y m d h mi s us, some off)
                      | none => none
                else none
      else none

/-! ## `datetime.strptime` models for the two fixed patterns of
`_parse_dt_utc` (news_scraper.py lines 183–192) -/

/-- Parse one or two digits, taking two only when what follows the second
digit satisfies `next` (the deterministic reading of `strptime`'s 1–2 digit
fields anchored by a separator or the end of input). -/
def parse12 (next : List Char → Bool) : List Char → Option (Nat × List Char)
  | a :: b :: rest =>
      match digitVal a, digitVal b with
      | some x, some y =>
          if next rest then some (10 * x + y, rest)
          else if next (b :: rest) then some (x, b :: rest) else none
      | some x, none => if next (b :: rest) then some (x, b :: rest) else none
      | _, _ => none
  | [a] =>
      match digitVal a with
      | some x => if next [] then some (x, []) else none
      | none => none
  | [] => none

/-- `datetime.strptime(text, "%Y-%m-%dT%H:%M:%S")`, as microseconds UTC
after the `.replace(tzinfo=timezone.utc)` of the source. -/
def strptimeDT (cs : List Char) : Option Int :=
  match parse4 cs with
  | none => none
  | some (y, r1) =>
      match r1 with
      | '-' :: r2 =>
          match parse12 (fun r => r.head? = some '-') r2 with
          | none => none
          | some (m, r3) =>
              match r3 with
              | '-' :: r4 =>
                  match parse12 (fun r => r.head? = some 'T') r4 with
                  | none => none
                  | some (d, r5) =>
                      match r5 with
                      | 'T' :: r6 =>
                          match parse12 (fun r => r.head? = some ':') r6 with
                          | none => none
                          | some (h, r7) =>
                              match r7 with
                              | ':' :: r8 =>
                                  match parse12 (fun r => r.head? = some ':') r8 with
                                  | none => none
                                  | some (mi, r9) =>
                                      match r9 with
                                      | ':' :: r10 =>
                                          match parse12 (fun r => r = []) r10 with
                                          | none => none
                                          | some (s, _) =>
                                              if 1 ≤ y ∧ 1 ≤ m ∧ m ≤ 12 ∧
                                                 1 ≤ (d : Int) ∧ (d : Int) ≤ monthrange y m ∧
                                                 h ≤ 23 ∧ mi ≤ 59 ∧ s ≤ 59 then
                                                some (civilMicros y m d h mi s 0)
                                              else none
                                      | _ => none
                              | _ => none
                      | _ => none
              | _ => none
      | _ => none

/-- `datetime.strptime(text, "%Y-%m-%d")`, as microseconds UTC after the
`.replace(tzinfo=timezone.utc)` of the source. -/
def strptimeD (cs : List Char) : Option Int :=
  match parse4 cs with
  | none => none
  | some (y, r1) =>
      match r1 with
      | '-' :: r2 =>
          match parse12 (fun r => r.head? = some '-') r2 with
          | none => none
          | some (m, r3) =>
              match r3 with
              | '-' :: r4 =>
                  match parse12 (fun r => r = []) r4 with
                  | none => none
                  | some (d, _) =>
                      if 1 ≤ y ∧ 1 ≤ m ∧ m ≤ 12 ∧
                         1 ≤ (d : Int) ∧ (d : Int) ≤ monthrange y m then
                        some (civilMicros y m d 0 0 0 0)
                      else none
              | _ => none
      | _ => none

/-! ## `_parse_dt_utc` (news_scraper.py lines 171–195) -/

/-- The regex `^\d{4}-\d{2}-\d{2}` (`_ISO_RE.match`). -/
def isoPrefixRe (cs : List Char) : Bool :=
  match cs with
  | a :: b :: c :: d :: '-' :: e :: f :: '-' :: g :: h :: _ =>
      [a, b, c, d, e, f, g, h].all (fun x => (digitVal x).isSome)
  | _ => false

/-- The zone `datetime.astimezone` assumes for naive datetimes: the system
local zone.  The application pins its clock arithmetic to KST, the zone the
repository deploys and displays in, so the model fixes it to `+09:00`. -/
def systemLocalOffset : Int := KOFF

/-- `_parse_dt_utc(dt_str)`: empty text is `None`; else strip and try
`fromisoformat` on the `Z → +00:00` rewrite, converting to UTC via the
parsed offset (or the local zone when naive); else, when the text starts
with `\d{4}-\d{2}-\d{2}`, `strptime` the 19- or 10-character truncation
(chosen by whether a `T` occurs) as a UTC instant; else `None`. -/
def parseDtUtc (dtStr : String) : Option Int :=
  if dtStr = "" then none
  else
    let s := pyStrip dtStr
    match fromIso (pyReplace s "Z" "+00:00").data with
    | some (civ, some off) => some (civ - off)
    | some (civ, none) => some (civ - systemLocalOffset)
    | none =>
        if isoPrefixRe s.data then
          if containsSub ("T".data) s.data then strptimeDT (s.data.take 19)
          else strptimeD (s.data.take 10)
        else none

/-- Modelled from the spec's claim wording (for comparison only): the claim
of C9 says `_parse_dt_utc` returns an instant exactly when the input parses
as ISO-8601 *with offset* (`Z` normalised), or begins with a `YYYY-MM-DD`
prefix whose 19-character truncation matches the datetime pattern *or*
whose 10-character truncation matches the date-only pattern. -/
def claimParseCond (s0 : String) : Bool :=
  let s := pyStrip s0
  (match fromIso (pyReplace s "Z" "+00:00").data with
   | some (_, some _) => true
   | _ => false) ||
  (isoPrefixRe s.data ∧
    ((strptimeDT (s.data.take 19)).isSome ∨ (strptimeD (s.data.take 10)).isSome))

/-! ## Claim C9 -/

/-- C9 (counterexample to the claim as stated): on `"2024-01-05Txyz"` the
parser returns none — the string contains a `T`, so only the 19-character
datetime pattern is tried, and it fails — yet the claim's condition holds,
because the 10-character truncation `"2024-01-05"` matches the date-only
pattern, so the claim predicts an instant. -/
theorem parseDtUtc_claim_counterexample :
    parseDtUtc "2024-01-05Txyz" = none ∧ claimParseCond "2024-01-05Txyz" = true :=
  ⟨by decide, by decide⟩

/-- C9 (amended): `_parse_dt_utc` is total, maps the empty string to none,
and returns an instant exactly when the stripped input (after `Z → +00:00`
rewriting) parses under the `fromisoformat` ISO-8601 grammar — offset
*optional* — or begins with a `\d{4}-\d{2}-\d{2}` prefix and, *if* it
contains a `T`, its 19-character truncation matches the datetime pattern,
*otherwise* its 10-character truncation matches the date-only pattern. -/
theorem parseDtUtc_total_iff (s : String) :
    parseDtUtc "" = none ∧
    ((parseDtUtc s).isSome = true ↔
      s ≠ "" ∧
        ((fromIso (pyReplace (pyStrip s) "Z" "+00:00").data).isSome = true ∨
         (isoPrefixRe (pyStrip s).data = true ∧
           (if containsSub ("T".data) (pyStrip s).data = true
            then (strptimeDT ((pyStrip s).data.take 19)).isSome = true
            else (strptimeD ((pyStrip s).data.take 10)).isSome = true)))) := by
  refine ⟨rfl, ?_⟩
  by_cases h0 : s = ""
  · subst h0
    simp [parseDtUtc]
  · simp only [parseDtUtc, if_neg h0]
    rcases hfi : fromIso (pyReplace (pyStrip s) "Z" "+00:00").data with _ | ⟨civ, off⟩
    · simp only [hfi, Option.isSome_none]
      by_cases hre : isoPrefixRe (pyStrip s).data = true
      · by_cases hT : containsSub ("T".data) (pyStrip s).data = true
        · simp [hre, hT, h0]
        · simp [hre, hT, h0]
      · simp [hre, h0]
    · rcases off with _ | off <;> simp [hfi, h0]

/-- Witness for C9 at a concrete offset-bearing timestamp. -/
theorem parseDtUtc_total_iff_witness :
    (parseDtUtc "2024-01-02T03:04:05Z").isSome = true :=
  (parseDtUtc_total_iff "2024-01-02T03:04:05Z").2.mpr ⟨by decide, Or.inl (by decide)⟩

/-! ## Recency sort (news_scraper.py lines 564–569 and 327–332) -/

/-- The sort key of `_sort_key` (search_news) and `_key_dt`
(search_news_multi): `(0, d)` for a parseable date, else
`(1, datetime.fromtimestamp(0, utc))`. -/
def sortKey (it : NewsItem) : Int × Int :=
  match parseDtUtc it.published with
  | some d => (0, d)
  | none => (1, 0)

/-- Python tuple `≤` on sort keys (lexicographic). -/
def keyLe (a b : Int × Int) : Bool :=
  a.1 < b.1 ∨ (a.1 = b.1 ∧ a.2 ≤ b.2)

/-- Whether `x` may precede `y` in the descending stable order of
`list.sort(key=sortKey, reverse=True)`: key of `x` at least key of `y`
(ties keep input order, so the earlier element precedes). -/
def beforeDesc (x y : NewsItem) : Bool :=
  keyLe (sortKey y) (sortKey x)

/-- Insert into a descending-sorted list, before the first element the
new element may precede (stability: the new element comes from earlier
input than the list elements). -/
def insertDesc (x : NewsItem) : List NewsItem → List NewsItem
  | [] => [x]
  | y :: ys => if beforeDesc x y then x :: y :: ys else y :: insertDesc x ys

/-- `kept.sort(key=_sort_key, reverse=True)` / `all_items.sort(key=_key_dt,
reverse=True)`: Python's sort is stable, and a stable descending sort is
uniquely determined by the key order, so insertion sort computes it. -/
def sortByRecency : List NewsItem → List NewsItem
  | [] => []
  | x :: xs => insertDesc x (sortByRecency xs)

/-! ## `_kst_calendar_window` (news_scraper.py lines 198–223) -/

/-- `_kst_calendar_window(freshness)` as a function of the current UTC
instant: compute the Day/Week/Month civil window in KST (local microseconds
are `utc + KOFF`) and return both bounds converted back to UTC. -/
def kstCalendarWindow (freshness : String) (nowUtc : Int) : Int × Int :=
  let nowKst := nowUtc + KOFF
  if pyLower freshness = "day" then
    let startK := DAYU * (nowKst / DAYU)
    (startK - KOFF, startK + (DAYU - USEC) - KOFF)
  else if pyLower freshness = "week" then
    let wd := (nowKst / DAYU + 3) % 7
    let startK := DAYU * ((nowKst - wd * DAYU) / DAYU)
    (startK - KOFF, startK + (7 * DAYU - USEC) - KOFF)
  else
    let c := civilFromDays (nowKst / DAYU)
    let startK := civilMicros c.1 c.2.1 1 0 0 0 0
    let endK := civilMicros c.1 c.2.1 (monthrange c.1 c.2.1) 23 59 59 0
    (startK - KOFF, endK - KOFF)

/-! ## `search_news` result filtering (news_scraper.py lines 527–576) -/

/-- The strict calendar-window pass (lines 534–545): keep items with an
unparseable `published` unconditionally, and parseable ones only inside
the inclusive window. -/
def strictPass (win : Int × Int) (items : List NewsItem) : List NewsItem :=
  items.filter (fun it =>
    match parseDtUtc it.published with
    | none => true
    | some d => win.1 ≤ d ∧ d ≤ win.2)

/-- The fallback lookback length in days (lines 552–556): month 30,
week 7, anything else 1. -/
def rollingDays (freshness : String) : Int :=
  if pyLower freshness = "month" then 30
  else if pyLower freshness = "week" then 7 else 1

/-- The rolling-window fallback re-scan of the full original list
(lines 557–562). -/
def rollingPass (nowUtc days : Int) (items : List NewsItem) : List NewsItem :=
  items.filter (fun it =>
    match parseDtUtc it.published with
    | none => true
    | some d => nowUtc - d ≤ days * DAYU)

/-- The kept list of `search_news` after the strict pass and, exactly when
that kept nothing, the rolling fallback (lines 527–562). -/
def searchNewsKept (nowUtc : Int) (freshness : String) (items : List NewsItem) :
    List NewsItem :=
  let kept := strictPass (kstCalendarWindow freshness nowUtc) items
  if kept = [] then rollingPass nowUtc (rollingDays freshness) items else kept

/-- The full post-processing tail of `search_news`: window filter, fallback,
recency sort (lines 527–576). -/
def searchNewsPost (nowUtc : Int) (freshness : String) (items : List NewsItem) :
    List NewsItem :=
  sortByRecency (searchNewsKept nowUtc freshness items)

/-! ## Claim C1 -/

/-- C1 (code bug): the recency sort puts unparseable-date items *first*,
not last.  With `reverse=True`, the key `(1, epoch)` of an unparseable item
compares greater than every `(0, d)`, so sorting `[parseable, unparseable]`
yields `[unparseable, parseable]` — contradicting the claim and the
source's own comment (`# 최신순 정렬: 날짜 없는 건 제일 뒤로`, line 564). -/
theorem sortByRecency_unparseable_first :
    sortByRecency [⟨"", "", "", "2024-01-02T00:00:00Z", ""⟩, ⟨"", "", "", "", ""⟩]
      = [⟨"", "", "", "", ""⟩, ⟨"", "", "", "2024-01-02T00:00:00Z", ""⟩] ∧
    parseDtUtc "" = none ∧
    (parseDtUtc "2024-01-02T00:00:00Z").isSome = true := by
  refine ⟨by decide, rfl, by decide⟩

/-! ## Calendar-window lemmas and claim C5 -/

/-- `daysFromCivil` is affine in the day of month. -/
theorem daysFromCivil_day_step (y m d : Int) :
    daysFromCivil y m d = daysFromCivil y m 1 + (d - 1) := by
  simp only [daysFromCivil]
  split_ifs <;> omega

/-- Every month has at least one day. -/
theorem monthrange_pos (y m : Int) : 1 ≤ monthrange y m := by
  simp only [monthrange, isLeapYear]
  split_ifs <;> omega

/-- The KST civil day number of a UTC instant. -/
def kstDayNum (nowUtc : Int) : Int := (nowUtc + KOFF) / DAYU

/-- The KST civil (year, month) of a UTC instant. -/
def kstYearMonth (nowUtc : Int) : Int × Int :=
  ((civilFromDays (kstDayNum nowUtc)).1, (civilFromDays (kstDayNum nowUtc)).2.1)

/-- The `"day"` branch of the windower, in closed form. -/
theorem kstWindow_day_eq (f : String) (now : Int) (hd : pyLower f = "day") :
    kstCalendarWindow f now
      = (DAYU * ((now + KOFF) / DAYU) - KOFF,
         DAYU * ((now + KOFF) / DAYU) + (DAYU - USEC) - KOFF) := by
  simp only [kstCalendarWindow]
  rw [if_pos hd]

/-- The `"week"` branch of the windower, in closed form. -/
theorem kstWindow_week_eq (f : String) (now : Int) (hw : pyLower f = "week") :
    kstCalendarWindow f now
      = (DAYU * ((now + KOFF - ((now + KOFF) / DAYU + 3) % 7 * DAYU) / DAYU) - KOFF,
         DAYU * ((now + KOFF - ((now + KOFF) / DAYU + 3) % 7 * DAYU) / DAYU)
           + (7 * DAYU - USEC) - KOFF) := by
  have hd : ¬ pyLower f = "day" := by rw [hw]; decide
  simp only [kstCalendarWindow]
  rw [if_neg hd, if_pos hw]

/-- The `"month"` (default) branch of the windower, in closed form. -/
theorem kstWindow_month_eq (f : String) (now : Int)
    (hd : ¬ pyLower f = "day") (hw : ¬ pyLower f = "week") :
    kstCalendarWindow f now
      = (civilMicros (kstYearMonth now).1 (kstYearMonth now).2 1 0 0 0 0 - KOFF,
         civilMicros (kstYearMonth now).1 (kstYearMonth now).2
           (monthrange (kstYearMonth now).1 (kstYearMonth now).2) 23 59 59 0 - KOFF) := by
  simp only [kstCalendarWindow, kstYearMonth, kstDayNum]
  rw [if_neg hd, if_neg hw]

/-- C5: for every freshness label and every instant the calendar window has
`end ≥ start` and spans exactly the label's calendar unit in KST: the day
window runs from the KST midnight containing `now` for one day minus one
second; the week window starts at a KST Monday midnight at most seven days
before `now` and spans seven days minus one second; every label other than
day/week (month included) yields the month window, from the 1st 00:00:00 to
the last true day of `now`'s KST month at 23:59:59 — with February spanning
29 days exactly in leap years. -/
theorem kstCalendarWindow_spec (f : String) (now : Int) :
    (kstCalendarWindow f now).1 ≤ (kstCalendarWindow f now).2 ∧
    (pyLower f = "day" →
      ((kstCalendarWindow f now).1 + KOFF) % DAYU = 0 ∧
      (kstCalendarWindow f now).1 ≤ now ∧
      now < (kstCalendarWindow f now).1 + DAYU ∧
      (kstCalendarWindow f now).2 = (kstCalendarWindow f now).1 + (DAYU - USEC)) ∧
    (pyLower f = "week" →
      ((kstCalendarWindow f now).1 + KOFF) % DAYU = 0 ∧
      (((kstCalendarWindow f now).1 + KOFF) / DAYU + 3) % 7 = 0 ∧
      (kstCalendarWindow f now).1 ≤ now ∧
      now < (kstCalendarWindow f now).1 + 7 * DAYU ∧
      (kstCalendarWindow f now).2 = (kstCalendarWindow f now).1 + (7 * DAYU - USEC)) ∧
    (pyLower f ≠ "day" → pyLower f ≠ "week" →
      kstCalendarWindow f now = kstCalendarWindow "month" now ∧
      (kstCalendarWindow f now).1 + KOFF
        = civilMicros (kstYearMonth now).1 (kstYearMonth now).2 1 0 0 0 0 ∧
      (kstCalendarWindow f now).2 - (kstCalendarWindow f now).1
        = monthrange (kstYearMonth now).1 (kstYearMonth now).2 * DAYU - USEC) ∧
    (monthrange (kstYearMonth now).1 2
      = if isLeapYear (kstYearMonth now).1 then 29 else 28) := by
  have hmonth : ∀ g : String, ¬ pyLower g = "day" → ¬ pyLower g = "week" →
      (kstCalendarWindow g now).2 - (kstCalendarWindow g now).1
        = monthrange (kstYearMonth now).1 (kstYearMonth now).2 * DAYU - USEC := by
    intro g hd hw
    rw [kstWindow_month_eq g now hd hw]
    simp only [civilMicros]
    rw [daysFromCivil_day_step (kstYearMonth now).1 (kstYearMonth now).2
          (monthrange (kstYearMonth now).1 (kstYearMonth now).2)]
    simp only [DAYU, USEC]
    ring
  refine ⟨?_, fun hd => ?_, fun hw => ?_, fun hd hw => ?_, by simp [monthrange]⟩
  · by_cases hd : pyLower f = "day"
    · rw [kstWindow_day_eq f now hd]
      simp only [DAYU, USEC, KOFF]
      omega
    · by_cases hw : pyLower f = "week"
      · rw [kstWindow_week_eq f now hw]
        simp only [DAYU, USEC, KOFF]
        omega
      · have h1 := hmonth f hd hw
        have h2 := monthrange_pos (kstYearMonth now).1 (kstYearMonth now).2
        simp only [DAYU, USEC] at h1 h2 ⊢
        nlinarith
  · rw [kstWindow_day_eq f now hd]
    simp only [DAYU, USEC, KOFF]
    omega
  · rw [kstWindow_week_eq f now hw]
    simp only [DAYU, USEC, KOFF]
    omega
  · have hmm : pyLower "month" = "month" := by decide
    have hmd : ¬ pyLower "month" = "day" := by decide
    have hmw : ¬ pyLower "month" = "week" := by decide
    refine ⟨?_, ?_, hmonth f hd hw⟩
    · rw [kstWindow_month_eq f now hd hw, kstWindow_month_eq "month" now hmd hmw]
    · rw [kstWindow_month_eq f now hd hw]
      omega

/-- Witness for C5 at the concrete label `"Week"` and a concrete instant. -/
theorem kstCalendarWindow_spec_witness :
    (kstCalendarWindow "Week" 1700000000000000).1
      ≤ (kstCalendarWindow "Week" 1700000000000000).2 ∧
    ((kstCalendarWindow "Week" 1700000000000000).1 + KOFF) % DAYU = 0 ∧
    (((kstCalendarWindow "Week" 1700000000000000).1 + KOFF) / DAYU + 3) % 7 = 0 ∧
    (kstCalendarWindow "Week" 1700000000000000).2
      = (kstCalendarWindow "Week" 1700000000000000).1 + (7 * DAYU - USEC) := by
  have h := kstCalendarWindow_spec "Week" 1700000000000000
  have hw := h.2.2.1 (by decide)
  exact ⟨h.1, hw.1, hw.2.1, hw.2.2.2.2⟩

/-! ## Claim C3 -/

/-- C3: the rolling-window fallback of `search_news` runs exactly when the
strict calendar pass keeps nothing; it re-scans the full original list,
keeping unparseable-date items unconditionally and parseable ones whose
instant lies within the rolling lookback of `now` (`now - d ≤ days`), with
the lookback 30 days for `"month"`, 7 for `"week"` and 1 for anything else
— so unrecognised labels get the 1-day lookback even though the calendar
windower defaults them to the month window. -/
theorem searchNewsKept_fallback (nowUtc : Int) (freshness : String)
    (items : List NewsItem) :
    (strictPass (kstCalendarWindow freshness nowUtc) items ≠ [] →
       searchNewsKept nowUtc freshness items
         = strictPass (kstCalendarWindow freshness nowUtc) items) ∧
    (strictPass (kstCalendarWindow freshness nowUtc) items = [] →
       searchNewsKept nowUtc freshness items
         = rollingPass nowUtc (rollingDays freshness) items) ∧
    (pyLower freshness = "month" → rollingDays freshness = 30) ∧
    (pyLower freshness = "week" → rollingDays freshness = 7) ∧
    (pyLower freshness ≠ "month" → pyLower freshness ≠ "week" →
       rollingDays freshness = 1) ∧
    (∀ it ∈ items,
      (it ∈ rollingPass nowUtc (rollingDays freshness) items ↔
        (parseDtUtc it.published = none ∨
         ∃ d, parseDtUtc it.published = some d ∧
           nowUtc - d ≤ rollingDays freshness * DAYU))) := by
  refine ⟨fun h => ?_, fun h => ?_, fun h => ?_, fun h => ?_, fun h1 h2 => ?_,
          fun it hit => ?_⟩
  · simp only [searchNewsKept, if_neg h]
  · simp only [searchNewsKept, if_pos h]
  · simp only [rollingDays, if_pos h]
  · have hnm : ¬ pyLower freshness = "month" := by rw [h]; decide
    simp only [rollingDays, if_neg hnm, if_pos h]
  · simp only [rollingDays, if_neg h1, if_neg h2]
  · rw [rollingPass, List.mem_filter]
    cases hp : parseDtUtc it.published with
    | none => simp [hit, hp]
    | some d => simp [hit, hp]

/-- Witness for C3 at an unrecognised label and the empty item list. -/
theorem searchNewsKept_fallback_witness :
    searchNewsKept 1700000000000000 "Quarter" []
      = rollingPass 1700000000000000 (rollingDays "Quarter") [] ∧
    rollingDays "Quarter" = 1 := by
  have h := searchNewsKept_fallback 1700000000000000 "Quarter" []
  exact ⟨h.2.1 rfl, h.2.2.2.2.1 (by decide) (by decide)⟩

/-! ## `json.loads` model (used by `search_news`)

A recursive-descent JSON parser on code points, fuel-indexed for structural
recursion.  Number values are represented by their integral part (no claim
depends on float arithmetic — only on whether the payload is an array);
`Infinity`/`NaN` extensions are not modelled.
-/

/-- A value as produced by `json.loads`. -/
inductive PyJson where
  | null
  | bool (b : Bool)
  | num (n : Int)
  | str (s : String)
  | arr (xs : List PyJson)
  | obj (kvs : List (String × PyJson))

/-- JSON whitespace. -/
def jsonWs (c : Char) : Bool := c = ' ' ∨ c = '\t' ∨ c = '\n' ∨ c = '\x0d'

/-- Parse a JSON string body (after the opening quote). -/
def parseJStr : List Char → Option (List Char × List Char)
  | [] => none
  | '"' :: rest => some ([], rest)
  | '\\' :: 'u' :: h1 :: h2 :: h3 :: h4 :: rest =>
      match hexDigitVal h1, hexDigitVal h2, hexDigitVal h3, hexDigitVal h4 with
      | some a, some b, some c, some d =>
          (parseJStr rest).map (fun p => (Char.ofNat (4096 * a + 256 * b + 16 * c + d) :: p.1, p.2))
      | _, _, _, _ => none
  | '\\' :: e :: rest =>
      let esc : Option Char :=
        if e = '"' then some '"' else if e = '\\' then some '\\'
        else if e = '/' then some '/' else if e = 'b' then some '\x08'
        else if e = 'f' then some '\x0c' else if e = 'n' then some '\n'
        else if e = 'r' then some '\x0d' else if e = 't' then some '\t' else none
      match esc with
      | some c => (parseJStr rest).map (fun p => (c :: p.1, p.2))
      | none => none
  | c :: rest =>
      if c.toNat < 32 then none
      else (parseJStr rest).map (fun p => (c :: p.1, p.2))

/-- Parse a JSON number; the value is its integral part. -/
def parseJNum (cs : List Char) : Option (Int × List Char) :=
  let sr : Bool × List Char := match cs with
    | '-' :: r => (true, r)
    | _ => (false, cs)
  let ds := sr.2.takeWhile (fun c => (digitVal c).isSome)
  if ds = [] then none
  else if 1 < ds.length ∧ ds.head? = some '0' then none
  else
    let v : Int := (ds.foldl (fun a c => 10 * a + (c.toNat - 48)) 0 : Nat)
    let rest := sr.2.drop ds.length
    let fr : Bool × List Char := match rest with
      | '.' :: r =>
          let fs := r.takeWhile (fun c => (digitVal c).isSome)
          if fs = [] then (false, rest) else (true, r.drop fs.length)
      | _ => (true, rest)
    if ¬ fr.1 then none
    else
      let er : Bool × List Char := match fr.2 with
        | e :: r =>
            if e = 'e' ∨ e = 'E' then
              let r2 := match r with
                | s :: rr => if s = '+' ∨ s = '-' then rr else r
                | [] => r
              let es := r2.takeWhile (fun c => (digitVal c).isSome)
              if es = [] then (false, fr.2) else (true, r2.drop es.length)
            else (true, fr.2)
        | [] => (true, fr.2)
      if ¬ er.1 then none
      else some (if sr.1 then -v else v, er.2)

/-- Parse comma-separated array elements (after the first element's start),
given a value parser. -/
def parseJElems (pv : List Char → Option (PyJson × List Char)) :
    Nat → List Char → Option (List PyJson × List Char)
  | 0, _ => none
  | fuel + 1, cs =>
      match pv cs with
      | none => none
      | some (v, rest) =>
          match rest.dropWhile jsonWs with
          | ',' :: r2 => (parseJElems pv fuel r2).map (fun p => (v :: p.1, p.2))
          | ']' :: r2 => some ([v], r2)
          | _ => none

/-- Parse comma-separated `"key": value` object members, given a value
parser. -/
def parseJMembers (pv : List Char → Option (PyJson × List Char)) :
    Nat → List Char → Option (List (String × PyJson) × List Char)
  | 0, _ => none
  | fuel + 1, cs =>
      match cs.dropWhile jsonWs with
      | '"' :: r1 =>
          match parseJStr r1 with
          | none => none
          | some (k, r2) =>
              match r2.dropWhile jsonWs with
              | ':' :: r3 =>
                  match pv r3 with
                  | none => none
                  | some (v, r4) =>
                      match r4.dropWhile jsonWs with
                      | ',' :: r5 =>
                          (parseJMembers pv fuel r5).map (fun p => ((⟨k⟩, v) :: p.1, p.2))
                      | '}' :: r5 => some ([(⟨k⟩, v)], r5)
                      | _ => none
              | _ => none
      | _ => none

/-- Parse one JSON value (fuel bounds the nesting depth). -/
def parseJV : Nat → List Char → Option (PyJson × List Char)
  | 0, _ => none
  | fuel + 1, cs =>
      match cs.dropWhile jsonWs with
      | 'n' :: 'u' :: 'l' :: 'l' :: rest => some (.null, rest)
      | 't' :: 'r' :: 'u' :: 'e' :: rest => some (.bool true, rest)
      | 'f' :: 'a' :: 'l' :: 's' :: 'e' :: rest => some (.bool false, rest)
      | '"' :: rest => (parseJStr rest).map (fun p => (.str ⟨p.1⟩, p.2))
      | '[' :: rest =>
          (match rest.dropWhile jsonWs with
           | ']' :: r2 => some (.arr [], r2)
           | _ => (parseJElems (parseJV fuel) (fuel + 1) rest).map
                    (fun p => (.arr p.1, p.2)))
      | '{' :: rest =>
          (match rest.dropWhile jsonWs with
           | '}' :: r2 => some (.obj [], r2)
           | _ => (parseJMembers (parseJV fuel) (fuel + 1) rest).map
                    (fun p => (.obj p.1, p.2)))
      | other => (parseJNum other).map (fun p => (.num p.1, p.2))

/-- `json.loads`: parse one value and require only whitespace after it. -/
def jsonLoads (s : String) : Option PyJson :=
  match parseJV (s.data.length + 1) s.data with
  | some (v, rest) => if rest.dropWhile jsonWs = [] then some v else none
  | none => none

/-! ## `search_news` extraction / parse / error pipeline (lines 484–576) -/

/-- Error kinds `search_news` can surface: the domain error `NewsError`
(line 512), or an uncaught Python exception (e.g. the `AttributeError` a
non-dict array element would raise in the item loop — outside the
domain-error taxonomy). -/
inductive SNErr where
  | newsError
  | pyError
deriving DecidableEq, Repr

/-- The `json.loads` + `isinstance(list)` step of `search_news`
(lines 498–512): a parse failure or a non-list payload is re-raised as the
domain error `NewsError`. -/
def loadsAndCheck (rawJson : String) : Except SNErr (List PyJson) :=
  match jsonLoads rawJson with
  | none => .error .newsError
  | some (.arr xs) => .ok xs
  | some _ => .error .newsError

/-- `v.get(key)` on a parsed JSON object (duplicate keys: last wins, as in
a Python dict built by `json.loads`). -/
def pyGet (kvs : List (String × PyJson)) (k : String) : Option PyJson :=
  match kvs.reverse.find? (fun kv => kv.1 = k) with
  | some kv => some kv.2
  | none => none

/-- `(v.get(k) or "").strip()`: missing keys and falsy values give `""`;
a truthy string is stripped; a truthy non-string has no `.strip` and
raises `AttributeError`. -/
def getStrField (kvs : List (String × PyJson)) (k : String) : Except SNErr String :=
  match pyGet kvs k with
  | none => .ok ""
  | some .null => .ok ""
  | some (.str s) => .ok (pyStrip s)
  | some (.bool false) => .ok ""
  | some (.bool true) => .error .pyError
  | some (.num n) => if n = 0 then .ok "" else .error .pyError
  | some (.arr []) => .ok ""
  | some (.arr (_ :: _)) => .error .pyError
  | some (.obj []) => .ok ""
  | some (.obj (_ :: _)) => .error .pyError

/-- The item-building loop of `search_news` (lines 514–525); a non-dict
element raises (`v.get` does not exist), modelled as a Python error. -/
def itemsOfJson : List PyJson → Except SNErr (List NewsItem)
  | [] => .ok []
  | .obj kvs :: rest => do
      let t ← getStrField kvs "title"
      let sn ← getStrField kvs "snippet"
      let so ← getStrField kvs "source"
      let pb ← getStrField kvs "published"
      let u ← getStrField kvs "url"
      let xs ← itemsOfJson rest
      .ok (⟨t, sn, so, pb, u⟩ :: xs)
  | _ :: _ => .error .pyError

/-- The extraction phase of `search_news` (lines 484–496) as a function of
the first and — on retry — second agent response texts: retry once on
extraction failure, then fall back to the literal `"[]"`. -/
def searchNewsRawJson (raw1 raw2 : String) : String :=
  match extractJsonArray raw1 with
  | some j => j
  | none =>
      match extractJsonArray raw2 with
      | some j => j
      | none => "[]"

/-- How many agent runs `search_news` performs for a given first response:
two exactly when the first extraction fails (lines 486–493). -/
def searchNewsAgentCalls (raw1 : String) : Nat :=
  if (extractJsonArray raw1).isSome then 1 else 2

/-- `search_news` from the first agent response text to its result
(lines 484–576): extract with one retry and `"[]"` fallback, parse and
type-check the JSON, build the items, then window/filter/sort. -/
def searchNewsModel (raw1 raw2 : String) (nowUtc : Int) (freshness : String) :
    Except SNErr (List NewsItem) := do
  let data ← loadsAndCheck (searchNewsRawJson raw1 raw2)
  let items ← itemsOfJson data
  .ok (searchNewsPost nowUtc freshness items)

/-! ## Claim C4 -/

/-- C4: when extracting a JSON array from the first response fails, exactly
one retry happens (two agent runs); when the retry's extraction also fails,
the call proceeds with the empty array and returns `ok []` rather than
raising; and any extracted text that parses as JSON but is not an array is
rejected with the domain error `NewsError`. -/
theorem searchNews_extraction_behaviour (raw1 raw2 : String) (nowUtc : Int)
    (freshness : String) (h1 : extractJsonArray raw1 = none) :
    searchNewsAgentCalls raw1 = 2 ∧
    (extractJsonArray raw2 = none →
      searchNewsModel raw1 raw2 nowUtc freshness = .ok []) ∧
    (∀ s v, jsonLoads s = some v → (∀ xs, v ≠ .arr xs) →
      loadsAndCheck s = .error .newsError) := by
  refine ⟨by simp [searchNewsAgentCalls, h1], fun h2 => ?_, fun s v hv hne => ?_⟩
  · have hraw : searchNewsRawJson raw1 raw2 = "[]" := by
      simp [searchNewsRawJson, h1, h2]
    rw [searchNewsModel, hraw]
    rfl
  · cases v with
    | arr xs => exact absurd rfl (hne xs)
    | null => simp [loadsAndCheck, hv]
    | bool b => simp [loadsAndCheck, hv]
    | num n => simp [loadsAndCheck, hv]
    | str s => simp [loadsAndCheck, hv]
    | obj kvs => simp [loadsAndCheck, hv]

/-- Witness for C4 at concrete unparseable responses and the non-array
payload `\x7b\x7d`. -/
theorem searchNews_extraction_behaviour_witness :
    searchNewsAgentCalls "no brackets here" = 2 ∧
    searchNewsModel "no brackets here" "still nothing" 1700000000000000 "Week"
      = .ok [] ∧
    loadsAndCheck "\x7b\x7d" = .error .newsError := by
  have h := searchNews_extraction_behaviour "no brackets here" "still nothing"
      1700000000000000 "Week" (by decide)
  exact ⟨h.1, h.2.1 (by decide),
         h.2.2 "\x7b\x7d" (.obj []) rfl (fun xs hx => PyJson.noConfusion hx)⟩
